import Mathlib

/-
A verification development for the tidb2dw replication core.

It shallowly embeds three parts of the code base:

 * `cmd` (the replication orchestrator): `RunMode`, `Stage`, `checkStage`
   and the stage `switch` (with `fallthrough`) inside `Replicate`;
 * `pkg/bigquerysql` : `GenMergeInto`, the dedup/merge SQL synthesizer;
 * `pkg/databrickssql` : `GenDDLViaColumnsDiff` and
   `GetDatabricksColumnString`, the dialect DDL synthesizer.

Effectful Go code is modelled by explicit data: an external storage is a
function from path to a `FileExists` probe result (the found flag together
with an optional error, mirroring Go's multiple return values), and the
orchestrator body is modelled by the list of stage actions a single
invocation performs when no action fails.
-/

namespace Tidb2dw

/-! ## The orchestrator (`cmd`): run modes, stages, marker probing -/

/-- `RunMode` from cmd: `full`, `snapshot-only`, `incremental-only`, `cloud`. -/
inductive RunMode where
  | full
  | snapshotOnly
  | incrementalOnly
  | cloud
deriving DecidableEq, Repr

/-- `Stage` from cmd: init → changefeed-created → snapshot-dumped → snapshot-loaded. -/
inductive Stage where
  | init
  | changefeedCreated
  | snapshotDumped
  | snapshotLoaded
deriving DecidableEq, Repr

/-- An external storage, reduced to its one probing capability used by
`checkStage`: `FileExists` returns an existence flag and an optional error,
mirroring the Go pair `(exist bool, err error)`. -/
structure ExternalStorage where
  fileExists : String → Bool × Option String

/-- `errors.Wrap` of pingcap/errors: wrapping a nil error yields nil,
wrapping a real error prefixes the message. -/
def errorsWrap (err : Option String) (msg : String) : Option String :=
  match err with
  | none => none
  | some e => some (msg ++ ": " ++ e)

/-- The probe cascade of `checkStage` (cmd), given an acquired storage.
Each Go block `if exist, err := storage.FileExists(ctx, path); err != nil || !exist
\x7b return stage, errors.Wrap(err, msg) \x7d else \x7b stage = next \x7d`
is transcribed with the same conflated condition `err ≠ none ∨ exist = false`. -/
def checkStageWith (storage : ExternalStorage) : Stage × Option String :=
  match storage.fileExists "increment/metadata" with
  | (exist, err) =>
    if err ≠ none ∨ exist = false then
      (Stage.init, errorsWrap err "Failed to check increment metadata")
    else
      match storage.fileExists "snapshot/metadata" with
      | (exist2, err2) =>
        if err2 ≠ none ∨ exist2 = false then
          (Stage.changefeedCreated, errorsWrap err2 "Failed to check snapshot metadata")
        else
          match storage.fileExists "snapshot/loadinfo" with
          | (exist3, err3) =>
            if err3 ≠ none ∨ exist3 = false then
              (Stage.snapshotDumped, errorsWrap err3 "Failed to check snapshot loadinfo")
            else
              (Stage.snapshotLoaded, none)

/-- `checkStage` (cmd): acquire the external storage (which may itself fail,
returning the initial stage with the error), then run the probe cascade. -/
def checkStage (getStorage : Except String ExternalStorage) : Stage × Option String :=
  match getStorage with
  | .error e => (Stage.init, some e)
  | .ok storage => checkStageWith storage

/-- Spec-side reading of `checkStage` (§4.1 of the spec): probe the three
markers in order; a probe error is surfaced as a storage error carrying the
stage reached so far; an absent marker (no error) stops the cascade and the
furthest stage reached is returned; each found marker advances the stage by
one step. Probe failure and absence are written as distinct branches here. -/
def checkStageSpec (getStorage : Except String ExternalStorage) : Stage × Option String :=
  match getStorage with
  | .error e => (Stage.init, some e)
  | .ok storage =>
    match storage.fileExists "increment/metadata" with
    | (_, some e) => (Stage.init, some ("Failed to check increment metadata: " ++ e))
    | (false, none) => (Stage.init, none)
    | (true, none) =>
      match storage.fileExists "snapshot/metadata" with
      | (_, some e) => (Stage.changefeedCreated, some ("Failed to check snapshot metadata: " ++ e))
      | (false, none) => (Stage.changefeedCreated, none)
      | (true, none) =>
        match storage.fileExists "snapshot/loadinfo" with
        | (_, some e) => (Stage.snapshotDumped, some ("Failed to check snapshot loadinfo: " ++ e))
        | (false, none) => (Stage.snapshotDumped, none)
        | (true, none) => (Stage.snapshotLoaded, none)

/-- The four stage actions driven by `Replicate` (cmd): create the TiCDC
changefeed, run the dumpling snapshot dump, load the snapshot through the
connector, and load the incremental change log through the connector. -/
inductive StageAction where
  | createChangefeed
  | dumpSnapshot
  | loadSnapshot
  | loadIncrement
deriving DecidableEq, Repr

/-- The `switch stage` body of `Replicate` (cmd), transcribed case by case
with Go's `fallthrough` unfolded: entering at a stage performs that case's
(mode-gated) action and then every later case's action. The value is the
list of stage actions one invocation performs when no action fails. -/
def replicateStageActions (stage : Stage) (mode : RunMode) : List StageAction :=
  match stage with
  | .init =>
    (if mode ≠ RunMode.snapshotOnly ∧ mode ≠ RunMode.cloud then [StageAction.createChangefeed] else []) ++
    (if mode ≠ RunMode.incrementalOnly ∧ mode ≠ RunMode.cloud then [StageAction.dumpSnapshot] else []) ++
    (if mode ≠ RunMode.incrementalOnly then [StageAction.loadSnapshot] else []) ++
    (if mode ≠ RunMode.snapshotOnly then [StageAction.loadIncrement] else [])
  | .changefeedCreated =>
    (if mode ≠ RunMode.incrementalOnly ∧ mode ≠ RunMode.cloud then [StageAction.dumpSnapshot] else []) ++
    (if mode ≠ RunMode.incrementalOnly then [StageAction.loadSnapshot] else []) ++
    (if mode ≠ RunMode.snapshotOnly then [StageAction.loadIncrement] else [])
  | .snapshotDumped =>
    (if mode ≠ RunMode.incrementalOnly then [StageAction.loadSnapshot] else []) ++
    (if mode ≠ RunMode.snapshotOnly then [StageAction.loadIncrement] else [])
  | .snapshotLoaded =>
    (if mode ≠ RunMode.snapshotOnly then [StageAction.loadIncrement] else [])

/-- `Replicate` (cmd) at the stage-machine level: determine the entry stage
via `checkStage` (propagating its error), then run the stage switch. -/
def ReplicateEntry (getStorage : Except String ExternalStorage) (mode : RunMode) :
    Except String (List StageAction) :=
  match checkStage getStorage with
  | (_, some e) => .error e
  | (stage, none) => .ok (replicateStageActions stage mode)

/-- Which single action belongs to a stage's case of the switch. -/
def stageAction : Stage → StageAction
  | .init => StageAction.createChangefeed
  | .changefeedCreated => StageAction.dumpSnapshot
  | .snapshotDumped => StageAction.loadSnapshot
  | .snapshotLoaded => StageAction.loadIncrement

/-- The run-mode gate of each stage's action, read off the spec (§3):
snapshot-only and cloud skip change-capture setup; incremental-only and
cloud skip the snapshot dump; incremental-only skips the snapshot load;
snapshot-only skips the incremental replay. -/
def stageGate (stage : Stage) (mode : RunMode) : Bool :=
  match stage with
  | .init => mode ≠ RunMode.snapshotOnly ∧ mode ≠ RunMode.cloud
  | .changefeedCreated => mode ≠ RunMode.incrementalOnly ∧ mode ≠ RunMode.cloud
  | .snapshotDumped => mode ≠ RunMode.incrementalOnly
  | .snapshotLoaded => mode ≠ RunMode.snapshotOnly

/-- The gated action list contributed by one stage of the machine. -/
def stageGatedActions (mode : RunMode) (stage : Stage) : List StageAction :=
  if stageGate stage mode then [stageAction stage] else []

/-- The ordered list of stages from a given entry stage to the end of the
stage machine. -/
def stagesFrom : Stage → List Stage
  | .init => [Stage.init, Stage.changefeedCreated, Stage.snapshotDumped, Stage.snapshotLoaded]
  | .changefeedCreated => [Stage.changefeedCreated, Stage.snapshotDumped, Stage.snapshotLoaded]
  | .snapshotDumped => [Stage.snapshotDumped, Stage.snapshotLoaded]
  | .snapshotLoaded => [Stage.snapshotLoaded]

/-- Storage state used below: every marker probe succeeds and finds the file. -/
def storageAllMarkers : ExternalStorage := ⟨fun _ => (true, none)⟩

/-- Storage state used below: increment/metadata and snapshot/metadata are
present, snapshot/loadinfo is absent, and no probe fails. -/
def storageNoLoadinfo : ExternalStorage :=
  ⟨fun path => if path = "snapshot/loadinfo" then (false, none) else (true, none)⟩

/-- C5: checkStage probes increment/metadata, snapshot/metadata and
snapshot/loadinfo in that order; each marker found advances the stage one
step along Init → ChangefeedCreated → SnapshotDumped → SnapshotLoaded, the
cascade stops at the first absent marker returning the furthest stage
reached, and a probe error is surfaced as a storage error (it is not
treated as absence): on every storage state `checkStage` coincides with the
spec-side cascade that keeps failure and absence on distinct branches. -/
theorem checkStage_probes_markers_in_order (getStorage : Except String ExternalStorage) :
    checkStage getStorage = checkStageSpec getStorage := by
  cases getStorage with
  | error e => rfl
  | ok storage =>
    show checkStageWith storage = checkStageSpec (.ok storage)
    rcases h1 : storage.fileExists "increment/metadata" with ⟨b1, e1⟩
    cases b1 <;> cases e1 <;>
      simp only [checkStageWith, checkStageSpec, errorsWrap, h1] <;>
      try simp
    rcases h2 : storage.fileExists "snapshot/metadata" with ⟨b2, e2⟩
    cases b2 <;> cases e2 <;>
      simp only [errorsWrap, h2] <;>
      try simp
    rcases h3 : storage.fileExists "snapshot/loadinfo" with ⟨b3, e3⟩
    cases b3 <;> cases e3 <;>
      simp only [errorsWrap, h3] <;>
      simp

/-- C3: for every entry stage returned by checkStage and every run mode, a
single invocation of Replicate executes the entry stage's mode-gated action
and then, unconditionally, the gated actions of every later stage in order
within the same invocation (it never stops after only the entry stage). -/
theorem Replicate_replays_all_later_stages
    (getStorage : Except String ExternalStorage) (mode : RunMode) (stage : Stage)
    (h : checkStage getStorage = (stage, none)) :
    ReplicateEntry getStorage mode = .ok (replicateStageActions stage mode) ∧
    replicateStageActions stage mode =
      List.flatten ((stagesFrom stage).map (stageGatedActions mode)) := by
  constructor
  · unfold ReplicateEntry
    rw [h]
  · cases stage <;> cases mode <;> rfl

/-- Witness for C3 at a concrete storage state (all markers present, so the
entry stage is SnapshotLoaded) and run mode full. -/
theorem Replicate_replays_all_later_stages_witness :
    checkStage (.ok storageAllMarkers) = (Stage.snapshotLoaded, none) ∧
    (ReplicateEntry (.ok storageAllMarkers) RunMode.full =
        .ok (replicateStageActions Stage.snapshotLoaded RunMode.full) ∧
      replicateStageActions Stage.snapshotLoaded RunMode.full =
        List.flatten ((stagesFrom Stage.snapshotLoaded).map (stageGatedActions RunMode.full))) :=
  ⟨by decide,
   Replicate_replays_all_later_stages (.ok storageAllMarkers) RunMode.full
     Stage.snapshotLoaded (by decide)⟩

/-- C4: Replicate gates stage actions by run mode exactly as stated:
change-capture setup runs only from entry stage Init and is skipped for
SnapshotOnly and Cloud; the snapshot dump runs when the entry stage reaches
its case and is skipped for IncrementalOnly and Cloud; the snapshot load is
skipped for IncrementalOnly; the incremental replay is reached from every
entry stage and is skipped only for SnapshotOnly. -/
theorem Replicate_runMode_gating : ∀ (stage : Stage) (mode : RunMode),
    (StageAction.createChangefeed ∈ replicateStageActions stage mode ↔
      stage = Stage.init ∧ mode ≠ RunMode.snapshotOnly ∧ mode ≠ RunMode.cloud) ∧
    (StageAction.dumpSnapshot ∈ replicateStageActions stage mode ↔
      (stage = Stage.init ∨ stage = Stage.changefeedCreated) ∧
        mode ≠ RunMode.incrementalOnly ∧ mode ≠ RunMode.cloud) ∧
    (StageAction.loadSnapshot ∈ replicateStageActions stage mode ↔
      (stage = Stage.init ∨ stage = Stage.changefeedCreated ∨ stage = Stage.snapshotDumped) ∧
        mode ≠ RunMode.incrementalOnly) ∧
    (StageAction.loadIncrement ∈ replicateStageActions stage mode ↔
      mode ≠ RunMode.snapshotOnly) := by
  intro stage mode
  cases stage <;> cases mode <;> decide

/-- Counterexample to C8: with only increment/metadata and snapshot/metadata
present, Replicate (run mode full, as in the spec's end-to-end restart
scenario) resumes at SnapshotDumped but does NOT run only the
incremental-load action: the snapshot-load action also executes. -/
theorem Replicate_resume_counterexample :
    checkStage (.ok storageNoLoadinfo) = (Stage.snapshotDumped, none) ∧
    ReplicateEntry (.ok storageNoLoadinfo) RunMode.full ≠
      .ok [StageAction.loadIncrement] ∧
    StageAction.loadSnapshot ∈ replicateStageActions Stage.snapshotDumped RunMode.full := by
  have hr : ReplicateEntry (.ok storageNoLoadinfo) RunMode.full =
      .ok [StageAction.loadSnapshot, StageAction.loadIncrement] := rfl
  refine ⟨rfl, ?_, by decide⟩
  rw [hr]
  intro h
  exact absurd (Except.ok.inj h) (by decide)

/-- C8 as amended: with only increment/metadata and snapshot/metadata
present, Replicate resumes at stage SnapshotDumped and executes exactly the
snapshot-load action followed by the incremental-load action (no earlier
stage action executes). -/
theorem Replicate_resume_snapshotDumped_amended :
    checkStage (.ok storageNoLoadinfo) = (Stage.snapshotDumped, none) ∧
    ReplicateEntry (.ok storageNoLoadinfo) RunMode.full =
      .ok [StageAction.loadSnapshot, StageAction.loadIncrement] :=
  ⟨rfl, rfl⟩

/-! ## Shared schema data model (tiflow cloudstorage / tidbsql) -/

/-- The table-level DDL action tag carried by a captured table definition
(`timodel.ActionType`); `other` stands for every action the DDL synthesizer
does not compare against (in particular ordinary column-level changes). -/
inductive ActionType where
  | truncateTable
  | dropTable
  | createTable
  | renameTables
  | dropSchema
  | createSchema
  | other
deriving DecidableEq, Repr

/-- `cloudstorage.TableCol`: one captured column. The Go struct stores
`Nullable` and `IsPK` as strings ("true"/"false"), which is kept here. -/
structure TableCol where
  Name : String
  Tp : String
  Nullable : String
  IsPK : String
deriving DecidableEq, Repr

/-- A default column value standing for Go's zero value, used where the Go
code dereferences an optional column pointer. -/
def defaultTableCol : TableCol := ⟨"", "", "", ""⟩

/-- `cloudstorage.TableDefinition`: a captured schema version. The Go field
`Type` (a `timodel.ActionType`) is called `Typ` here because `Type` is a
reserved word in Lean. -/
structure TableDefinition where
  Schema : String
  Table : String
  Typ : ActionType
  Columns : List TableCol
deriving DecidableEq, Repr

/-- Modelled from the spec: the column-diff item type of `tidbsql` (not
under src/); §3 gives `Action ∈ \x7bAdd, Drop, Modify, Rename, Unchanged\x7d`.
The constant names follow the `tidbsql.ADD_COLUMN` ... constants the
Databricks synthesizer matches on. -/
inductive DiffAction where
  | addColumn
  | dropColumn
  | modifyColumn
  | renameColumn
  | unchanged
deriving DecidableEq, Repr

/-- Modelled from the spec (§3): `ColumnDiffItem` is an action together with
the optional before/after columns. -/
structure ColumnDiffItem where
  Action : DiffAction
  Before : Option TableCol
  After : Option TableCol
deriving DecidableEq, Repr

/-! ## The Databricks DDL synthesizer (`pkg/databrickssql/ddl.go`)

`GetDatabricksTypeString` and `tidbsql.GetColumnDiff` are code of the
repository outside src/, so the embedded functions below take them as
function arguments (`typeStrFn`, `getColumnDiff`); every theorem holds for
all instantiations. -/

/-- `GetDatabricksColumnString` (ddl.go): render a column as
`name type` with a ` NOT NULL` suffix when `Nullable = "false"`; a failure
of the type mapping propagates. Default values are omitted (Delta tables do
not support them). -/
def GetDatabricksColumnString (typeStrFn : TableCol → Except String String)
    (column : TableCol) : Except String String :=
  match typeStrFn column with
  | .error e => .error e
  | .ok typeStr =>
    .ok (column.Name ++ " " ++ typeStr ++ (if column.Nullable = "false" then " NOT NULL" else ""))

/-- The per-item loop of `GenDDLViaColumnsDiff` (ddl.go lines 37-62) in
recursive form: ADD renders `ALTER TABLE ... ADD COLUMN`, DROP renders
`ALTER TABLE ... DROP COLUMN`, MODIFY aborts (Databricks has no type
modification), RENAME renders `ALTER TABLE ... RENAME COLUMN`, and the
default (UNCHANGE) branch leaves the statement empty so nothing is
appended. -/
def renderColumnDiffDDLs (typeStrFn : TableCol → Except String String)
    (table : String) : List ColumnDiffItem → Except String (List String)
  | [] => .ok []
  | item :: rest =>
    match item.Action with
    | .addColumn =>
      match GetDatabricksColumnString typeStrFn (item.After.getD defaultTableCol) with
      | .error e => .error e
      | .ok colStr =>
        match renderColumnDiffDDLs typeStrFn table rest with
        | .error e => .error e
        | .ok ddls => .ok (("ALTER TABLE " ++ table ++ " ADD COLUMN " ++ colStr ++ ";") :: ddls)
    | .dropColumn =>
      match renderColumnDiffDDLs typeStrFn table rest with
      | .error e => .error e
      | .ok ddls =>
        .ok (("ALTER TABLE " ++ table ++ " DROP COLUMN " ++
          (item.Before.getD defaultTableCol).Name ++ ";") :: ddls)
    | .modifyColumn => .error "Received modify column ddl, which is not supported by Databricks yet"
    | .renameColumn =>
      match renderColumnDiffDDLs typeStrFn table rest with
      | .error e => .error e
      | .ok ddls =>
        .ok (("ALTER TABLE " ++ table ++ " RENAME COLUMN " ++
          (item.Before.getD defaultTableCol).Name ++ " TO " ++
          (item.After.getD defaultTableCol).Name ++ ";") :: ddls)
    | .unchanged => renderColumnDiffDDLs typeStrFn table rest

/-- `GenDDLViaColumnsDiff` (ddl.go): table-level change types short-circuit
(truncate / drop table / drop schema produce one statement; create table,
rename table and create schema fail); otherwise the column diff is computed
and rendered item by item. -/
def GenDDLViaColumnsDiff (typeStrFn : TableCol → Except String String)
    (getColumnDiff : List TableCol → List TableCol → Except String (List ColumnDiffItem))
    (prevColumns : List TableCol) (curTableDef : TableDefinition) :
    Except String (List String) :=
  if curTableDef.Typ = ActionType.truncateTable then
    .ok ["TRUNCATE TABLE " ++ curTableDef.Table]
  else if curTableDef.Typ = ActionType.dropTable then
    .ok ["DROP TABLE " ++ curTableDef.Table]
  else if curTableDef.Typ = ActionType.createTable then
    .error "Received create table ddl, which should not happen"
  else if curTableDef.Typ = ActionType.renameTables then
    .error ("Received rename table ddl, new change data can not be capture by TiCDC any more." ++
      "If you want to rename table, please start a new task to capture the new table")
  else if curTableDef.Typ = ActionType.dropSchema then
    .ok ["DROP SCHEMA " ++ curTableDef.Schema ++ " CASCADE"]
  else if curTableDef.Typ = ActionType.createSchema then
    .error "Received create schema ddl, which should not happen"
  else
    match getColumnDiff prevColumns curTableDef.Columns with
    | .error e => .error e
    | .ok columnDiff => renderColumnDiffDDLs typeStrFn curTableDef.Table columnDiff

/-- Whether a diff action belongs to the statement-producing kinds. -/
def isRenderedAction : DiffAction → Bool
  | .addColumn => true
  | .dropColumn => true
  | .renameColumn => true
  | _ => false

theorem renderColumnDiffDDLs_modify_error (typeStrFn : TableCol → Except String String)
    (table : String) :
    ∀ items : List ColumnDiffItem, (∃ it ∈ items, it.Action = DiffAction.modifyColumn) →
      ∃ e, renderColumnDiffDDLs typeStrFn table items = .error e := by
  intro items
  induction items with
  | nil => rintro ⟨it, hmem, _⟩; cases hmem
  | cons item rest ih =>
    rintro ⟨it, hmem, hact⟩
    rcases List.mem_cons.mp hmem with heq | hrest
    · subst heq
      exact ⟨"Received modify column ddl, which is not supported by Databricks yet",
        by simp [renderColumnDiffDDLs, hact]⟩
    · obtain ⟨e, he⟩ := ih ⟨it, hrest, hact⟩
      cases hA : item.Action with
      | addColumn =>
        cases hC : GetDatabricksColumnString typeStrFn (item.After.getD defaultTableCol) with
        | error e2 => exact ⟨e2, by simp [renderColumnDiffDDLs, hA, hC]⟩
        | ok colStr => exact ⟨e, by simp [renderColumnDiffDDLs, hA, hC, he]⟩
      | dropColumn => exact ⟨e, by simp [renderColumnDiffDDLs, hA, he]⟩
      | modifyColumn =>
        exact ⟨"Received modify column ddl, which is not supported by Databricks yet",
          by simp [renderColumnDiffDDLs, hA]⟩
      | renameColumn => exact ⟨e, by simp [renderColumnDiffDDLs, hA, he]⟩
      | unchanged => exact ⟨e, by simp [renderColumnDiffDDLs, hA, he]⟩

/-- C6: a table-level change type of truncate, drop-table or drop-schema
makes GenDDLViaColumnsDiff return exactly one statement (TRUNCATE TABLE,
DROP TABLE, DROP SCHEMA ... CASCADE respectively); the result is the same
for every column-diff function and every column list, so column diffing is
never consulted. -/
theorem GenDDL_tableLevel_single_statement
    (typeStrFn : TableCol → Except String String)
    (getColumnDiff : List TableCol → List TableCol → Except String (List ColumnDiffItem))
    (prevColumns : List TableCol) (curTableDef : TableDefinition) :
    (curTableDef.Typ = ActionType.truncateTable →
      GenDDLViaColumnsDiff typeStrFn getColumnDiff prevColumns curTableDef =
        .ok ["TRUNCATE TABLE " ++ curTableDef.Table]) ∧
    (curTableDef.Typ = ActionType.dropTable →
      GenDDLViaColumnsDiff typeStrFn getColumnDiff prevColumns curTableDef =
        .ok ["DROP TABLE " ++ curTableDef.Table]) ∧
    (curTableDef.Typ = ActionType.dropSchema →
      GenDDLViaColumnsDiff typeStrFn getColumnDiff prevColumns curTableDef =
        .ok ["DROP SCHEMA " ++ curTableDef.Schema ++ " CASCADE"]) := by
  refine ⟨fun h => ?_, fun h => ?_, fun h => ?_⟩ <;> simp [GenDDLViaColumnsDiff, h]

/-- Concrete inputs for the DDL witnesses. -/
def trivialTypeStr : TableCol → Except String String := fun _ => .ok "INT"

/-- A column-diff function returning an empty diff, for witnesses. -/
def trivialColumnDiff : List TableCol → List TableCol → Except String (List ColumnDiffItem) :=
  fun _ _ => .ok []

/-- Concrete table definitions for the DDL witnesses. -/
def tdTruncate : TableDefinition := ⟨"sch", "tbl", ActionType.truncateTable, []⟩

/-- Concrete drop-table definition for the DDL witnesses. -/
def tdDropTable : TableDefinition := ⟨"sch", "tbl", ActionType.dropTable, []⟩

/-- Concrete drop-schema definition for the DDL witnesses. -/
def tdDropSchema : TableDefinition := ⟨"sch", "tbl", ActionType.dropSchema, []⟩

/-- Witness for C6 at concrete inputs for each of the three change types. -/
theorem GenDDL_tableLevel_single_statement_witness :
    GenDDLViaColumnsDiff trivialTypeStr trivialColumnDiff [] tdTruncate =
      .ok ["TRUNCATE TABLE " ++ tdTruncate.Table] ∧
    GenDDLViaColumnsDiff trivialTypeStr trivialColumnDiff [] tdDropTable =
      .ok ["DROP TABLE " ++ tdDropTable.Table] ∧
    GenDDLViaColumnsDiff trivialTypeStr trivialColumnDiff [] tdDropSchema =
      .ok ["DROP SCHEMA " ++ tdDropSchema.Schema ++ " CASCADE"] :=
  ⟨(GenDDL_tableLevel_single_statement trivialTypeStr trivialColumnDiff [] tdTruncate).1 rfl,
   (GenDDL_tableLevel_single_statement trivialTypeStr trivialColumnDiff [] tdDropTable).2.1 rfl,
   (GenDDL_tableLevel_single_statement trivialTypeStr trivialColumnDiff [] tdDropSchema).2.2 rfl⟩

/-- C7: GenDDLViaColumnsDiff fails with an explicit error and returns no
statements whenever the change type is create-table, create-schema or
rename-table, and whenever the computed column diff contains a Modify item
(the error value of `Except` carries no statement list). -/
theorem GenDDL_unsupported_changes_fail
    (typeStrFn : TableCol → Except String String)
    (getColumnDiff : List TableCol → List TableCol → Except String (List ColumnDiffItem))
    (prevColumns : List TableCol) (curTableDef : TableDefinition) :
    (curTableDef.Typ = ActionType.createTable ∨ curTableDef.Typ = ActionType.createSchema ∨
        curTableDef.Typ = ActionType.renameTables →
      ∃ e, GenDDLViaColumnsDiff typeStrFn getColumnDiff prevColumns curTableDef = .error e) ∧
    (∀ items : List ColumnDiffItem, curTableDef.Typ = ActionType.other →
      getColumnDiff prevColumns curTableDef.Columns = .ok items →
      (∃ it ∈ items, it.Action = DiffAction.modifyColumn) →
      ∃ e, GenDDLViaColumnsDiff typeStrFn getColumnDiff prevColumns curTableDef = .error e) := by
  constructor
  · rintro (h | h | h)
    · exact ⟨"Received create table ddl, which should not happen",
        by simp [GenDDLViaColumnsDiff, h]⟩
    · exact ⟨"Received create schema ddl, which should not happen",
        by simp [GenDDLViaColumnsDiff, h]⟩
    · exact ⟨"Received rename table ddl, new change data can not be capture by TiCDC any more." ++
        "If you want to rename table, please start a new task to capture the new table",
        by simp [GenDDLViaColumnsDiff, h]⟩
  · intro items hTyp hDiff hMod
    obtain ⟨e, he⟩ := renderColumnDiffDDLs_modify_error typeStrFn curTableDef.Table items hMod
    exact ⟨e, by simp [GenDDLViaColumnsDiff, hTyp, hDiff, he]⟩

/-- Concrete create-table definition for the DDL witnesses. -/
def tdCreateTable : TableDefinition := ⟨"sch", "tbl", ActionType.createTable, []⟩

/-- Concrete column-level table definition for the DDL witnesses. -/
def tdOther : TableDefinition := ⟨"sch", "tbl", ActionType.other, []⟩

/-- A Modify diff item for the DDL witnesses. -/
def modifyDiffItem : ColumnDiffItem :=
  ⟨DiffAction.modifyColumn, some defaultTableCol, some defaultTableCol⟩

/-- A column-diff function returning one Modify item, for witnesses. -/
def modifyColumnDiff : List TableCol → List TableCol → Except String (List ColumnDiffItem) :=
  fun _ _ => .ok [modifyDiffItem]

/-- Witness for C7: a create-table change and a Modify diff item both fail. -/
theorem GenDDL_unsupported_changes_fail_witness :
    (∃ e, GenDDLViaColumnsDiff trivialTypeStr trivialColumnDiff [] tdCreateTable = .error e) ∧
    (∃ e, GenDDLViaColumnsDiff trivialTypeStr modifyColumnDiff [] tdOther = .error e) :=
  ⟨(GenDDL_unsupported_changes_fail trivialTypeStr trivialColumnDiff [] tdCreateTable).1
     (Or.inl rfl),
   (GenDDL_unsupported_changes_fail trivialTypeStr modifyColumnDiff [] tdOther).2
     [modifyDiffItem] rfl rfl ⟨modifyDiffItem, by decide⟩⟩

/-- C9: Unchanged diff items contribute no DDL statement: whenever the
item-rendering loop succeeds, the number of statements equals the number of
Add, Drop and Rename items, and every returned statement is the rendering
of some non-Unchanged item of the diff. -/
theorem renderColumnDiffDDLs_skips_unchanged (typeStrFn : TableCol → Except String String)
    (table : String) :
    ∀ (items : List ColumnDiffItem) (stmts : List String),
      renderColumnDiffDDLs typeStrFn table items = .ok stmts →
      stmts.length = (items.filter (fun it => isRenderedAction it.Action)).length ∧
      ∀ s ∈ stmts, ∃ it ∈ items, it.Action ≠ DiffAction.unchanged ∧
        renderColumnDiffDDLs typeStrFn table [it] = .ok [s] := by
  intro items
  induction items with
  | nil =>
    intro stmts h
    simp only [renderColumnDiffDDLs] at h
    cases h
    simp
  | cons item rest ih =>
    intro stmts h
    cases hA : item.Action with
    | addColumn =>
      simp only [renderColumnDiffDDLs, hA] at h
      cases hC : GetDatabricksColumnString typeStrFn (item.After.getD defaultTableCol) with
      | error e => simp [hC] at h
      | ok colStr =>
        simp only [hC] at h
        cases hR : renderColumnDiffDDLs typeStrFn table rest with
        | error e => simp [hR] at h
        | ok ddls =>
          simp only [hR] at h
          cases h
          obtain ⟨ihLen, ihMem⟩ := ih ddls hR
          constructor
          · simp [List.filter_cons, hA, isRenderedAction, ihLen]
          · intro s hs
            rcases List.mem_cons.mp hs with hs | hs
            · exact ⟨item, List.mem_cons_self item rest,
                by simp [hA], by simp [renderColumnDiffDDLs, hA, hC, hs]⟩
            · obtain ⟨it, hmem, hne, hrend⟩ := ihMem s hs
              exact ⟨it, List.mem_cons_of_mem item hmem, hne, hrend⟩
    | dropColumn =>
      simp only [renderColumnDiffDDLs, hA] at h
      cases hR : renderColumnDiffDDLs typeStrFn table rest with
      | error e => simp [hR] at h
      | ok ddls =>
        simp only [hR] at h
        cases h
        obtain ⟨ihLen, ihMem⟩ := ih ddls hR
        constructor
        · simp [List.filter_cons, hA, isRenderedAction, ihLen]
        · intro s hs
          rcases List.mem_cons.mp hs with hs | hs
          · exact ⟨item, List.mem_cons_self item rest,
              by simp [hA], by simp [renderColumnDiffDDLs, hA, hs]⟩
          · obtain ⟨it, hmem, hne, hrend⟩ := ihMem s hs
            exact ⟨it, List.mem_cons_of_mem item hmem, hne, hrend⟩
    | modifyColumn =>
      simp [renderColumnDiffDDLs, hA] at h
    | renameColumn =>
      simp only [renderColumnDiffDDLs, hA] at h
      cases hR : renderColumnDiffDDLs typeStrFn table rest with
      | error e => simp [hR] at h
      | ok ddls =>
        simp only [hR] at h
        cases h
        obtain ⟨ihLen, ihMem⟩ := ih ddls hR
        constructor
        · simp [List.filter_cons, hA, isRenderedAction, ihLen]
        · intro s hs
          rcases List.mem_cons.mp hs with hs | hs
          · exact ⟨item, List.mem_cons_self item rest,
              by simp [hA], by simp [renderColumnDiffDDLs, hA, hs]⟩
          · obtain ⟨it, hmem, hne, hrend⟩ := ihMem s hs
            exact ⟨it, List.mem_cons_of_mem item hmem, hne, hrend⟩
    | unchanged =>
      simp only [renderColumnDiffDDLs, hA] at h
      obtain ⟨ihLen, ihMem⟩ := ih stmts h
      constructor
      · simp [List.filter_cons, hA, isRenderedAction, ihLen]
      · intro s hs
        obtain ⟨it, hmem, hne, hrend⟩ := ihMem s hs
        exact ⟨it, List.mem_cons_of_mem item hmem, hne, hrend⟩

/-- An Add diff item for the C9 witness. -/
def addDiffItem : ColumnDiffItem := ⟨DiffAction.addColumn, none, some ⟨"c1", "int", "true", ""⟩⟩

/-- An Unchanged diff item for the C9 witness. -/
def unchangedDiffItem : ColumnDiffItem :=
  ⟨DiffAction.unchanged, some defaultTableCol, some defaultTableCol⟩

/-- A Drop diff item for the C9 witness. -/
def dropDiffItem : ColumnDiffItem := ⟨DiffAction.dropColumn, some ⟨"c0", "int", "true", ""⟩, none⟩

/-- The diff list for the C9 witness. -/
def witnessDiffItems : List ColumnDiffItem := [addDiffItem, unchangedDiffItem, dropDiffItem]

/-- The statements the C9 witness diff renders to. -/
def witnessDiffStmts : List String :=
  ["ALTER TABLE tbl ADD COLUMN c1 INT;", "ALTER TABLE tbl DROP COLUMN c0;"]

/-- Witness for C9: a three-item diff (Add, Unchanged, Drop) renders to two
statements, one per non-Unchanged item. -/
theorem renderColumnDiffDDLs_skips_unchanged_witness :
    renderColumnDiffDDLs trivialTypeStr "tbl" witnessDiffItems = .ok witnessDiffStmts ∧
    (witnessDiffStmts.length =
        (witnessDiffItems.filter (fun it => isRenderedAction it.Action)).length ∧
      ∀ s ∈ witnessDiffStmts, ∃ it ∈ witnessDiffItems, it.Action ≠ DiffAction.unchanged ∧
        renderColumnDiffDDLs trivialTypeStr "tbl" [it] = .ok [s]) :=
  ⟨rfl, renderColumnDiffDDLs_skips_unchanged trivialTypeStr "tbl" witnessDiffItems
    witnessDiffStmts rfl⟩

/-! ## The BigQuery dedup/merge synthesizer (`pkg/bigquerysql`, `GenMergeInto`) -/

/-- Modelled from the spec: `pkg/utils` is not under src/; per §3 the change
log carries a synthetic ordering-key column (the source commit timestamp).
Only the name's identity matters to the synthesized SQL. -/
def CDCCommitTsColumnName : String := "tidb_commit_ts"

/-- Modelled from the spec: `pkg/utils` is not under src/; per §3 the change
log carries a synthetic operation-flag column with values such as I/U/D. -/
def CDCFlagColumnName : String := "tidb_op_flag"

/-- The `pkColumn` list built by GenMergeInto: names of the columns whose
`IsPK` field is the string "true". -/
def pkColumnOf (tableDef : TableDefinition) : List String :=
  (tableDef.Columns.filter (fun col => col.IsPK == "true")).map (fun col => col.Name)

/-- The `onStat` list built by GenMergeInto: one `T.c = S.c` equality per
primary-key column. -/
def onStatOf (tableDef : TableDefinition) : List String :=
  (tableDef.Columns.filter (fun col => col.IsPK == "true")).map
    (fun col => "T." ++ col.Name ++ " = S." ++ col.Name)

/-- The `updateStat` list built by GenMergeInto: one `c = S.c` assignment
per column of the table (the loop ranges over all columns). -/
def updateStatOf (tableDef : TableDefinition) : List String :=
  tableDef.Columns.map (fun col => col.Name ++ " = S." ++ col.Name)

/-- The `insertStat` list built by GenMergeInto: every column name. -/
def insertStatOf (tableDef : TableDefinition) : List String :=
  tableDef.Columns.map (fun col => col.Name)

/-- The `valuesStat` list built by GenMergeInto: `S.c` per column. -/
def valuesStatOf (tableDef : TableDefinition) : List String :=
  tableDef.Columns.map (fun col => "S." ++ col.Name)

/-- The backtick-quoted `dataset.table` name GenMergeInto builds for the
target and the external change-log table. -/
def bigqueryTableName (datasetID tableID : String) : String :=
  "`" ++ datasetID ++ "." ++ tableID ++ "`"

/-- The `fmt.Sprintf` template of GenMergeInto with its nine `%s` slots as
arguments (the flag column name is passed three times in the Go call with
the same value, so it appears here as one argument used three times). -/
def mergeSQLTemplate (target pkCols orderCol extTable onCond flagCol updateSet
    insertCols insertVals : String) : String :=
  "MERGE INTO " ++ target ++ " AS T USING\n\t(\n\t\tSELECT * EXCEPT(row_num)\n\t\tFROM (\n\t\t\tSELECT\n\t\t\t\t*, row_number() over (partition by " ++
    pkCols ++ " order by " ++ orderCol ++ " desc) as row_num\n\t\t\tFROM " ++
    extTable ++ "\n\t\t)\n\t\tWHERE row_num = 1\n\t) AS S\n\tON\n\t(\n\t\t" ++
    onCond ++ "\n\t)\n\tWHEN MATCHED AND S." ++ flagCol ++ " != 'D' THEN UPDATE SET " ++
    updateSet ++ "\n\tWHEN MATCHED AND S." ++ flagCol ++ " = 'D' THEN DELETE\n\tWHEN NOT MATCHED AND S." ++
    flagCol ++ " != 'D' THEN INSERT (" ++ insertCols ++ ") VALUES (" ++ insertVals ++ ");"

/-- `GenMergeInto` (bigquerysql): the merge statement synthesized for one
applied batch, assembled from the column lists above and the template. -/
def GenMergeInto (tableDef : TableDefinition) (datasetID tableID externalTableID : String) :
    String :=
  mergeSQLTemplate
    (bigqueryTableName datasetID tableID)
    (String.intercalate ", " (pkColumnOf tableDef))
    CDCCommitTsColumnName
    (bigqueryTableName datasetID externalTableID)
    (String.intercalate " AND " (onStatOf tableDef))
    CDCFlagColumnName
    (String.intercalate ", " (updateStatOf tableDef))
    (String.intercalate ", " (insertStatOf tableDef))
    (String.intercalate ", " (valuesStatOf tableDef))

/-! ### A structured view of the synthesized merge statement

`MergeSpec` is the clause structure of the statement; `renderMergeSpec`
prints it, and the statement GenMergeInto builds is proved equal to the
rendering of `mergeSpecOf`. An executable semantics then interprets the
clause structure over abstract rows. -/

/-- The flag predicate of a WHEN clause: equal to the delete flag or not. -/
inductive FlagCond where
  | eqDelete
  | neDelete
deriving DecidableEq, Repr

/-- The action of a WHEN clause, carrying the column names it touches. -/
inductive ClauseAction where
  | update (cols : List String)
  | delete
  | insert (cols : List String)
deriving DecidableEq, Repr

/-- One WHEN clause: MATCHED or NOT MATCHED, a flag predicate, an action. -/
structure WhenClause where
  matched : Bool
  cond : FlagCond
  action : ClauseAction
deriving DecidableEq, Repr

/-- The structure of a synthesized merge statement: the dedup window
(partition columns and descending order column), the join columns and the
WHEN clauses. -/
structure MergeSpec where
  partitionBy : List String
  orderCol : String
  onCols : List String
  whens : List WhenClause
deriving DecidableEq, Repr

/-- The clause structure of the statement GenMergeInto synthesizes:
dedup partitions by the primary-key columns ordered descending by the
commit-ts column, the join is on the primary-key columns, and there are
exactly three WHEN clauses — matched and not deleted updates every column,
matched and deleted deletes, unmatched and not deleted inserts every
column. No clause exists for unmatched deleted rows. -/
def mergeSpecOf (tableDef : TableDefinition) : MergeSpec :=
  { partitionBy := pkColumnOf tableDef
    orderCol := CDCCommitTsColumnName
    onCols := pkColumnOf tableDef
    whens :=
      [⟨true, FlagCond.neDelete, ClauseAction.update (insertStatOf tableDef)⟩,
       ⟨true, FlagCond.eqDelete, ClauseAction.delete⟩,
       ⟨false, FlagCond.neDelete, ClauseAction.insert (insertStatOf tableDef)⟩] }

/-- Rendering of a WHEN clause's flag predicate. -/
def renderFlagPredicate (flagCol : String) : FlagCond → String
  | FlagCond.eqDelete => "S." ++ flagCol ++ " = 'D'"
  | FlagCond.neDelete => "S." ++ flagCol ++ " != 'D'"

/-- Rendering of a WHEN clause's action. -/
def renderClauseAction : ClauseAction → String
  | ClauseAction.update cols =>
    "UPDATE SET " ++ String.intercalate ", " (cols.map (fun c => c ++ " = S." ++ c))
  | ClauseAction.delete => "DELETE"
  | ClauseAction.insert cols =>
    "INSERT (" ++ String.intercalate ", " cols ++ ") VALUES (" ++
      String.intercalate ", " (cols.map (fun c => "S." ++ c)) ++ ")"

/-- Rendering of one WHEN clause as a statement line. -/
def renderWhenClause (flagCol : String) (w : WhenClause) : String :=
  "\n\tWHEN " ++ (if w.matched then "MATCHED" else "NOT MATCHED") ++ " AND " ++
    renderFlagPredicate flagCol w.cond ++ " THEN " ++ renderClauseAction w.action

/-- Rendering of a clause list, one line per clause. -/
def renderWhens (flagCol : String) : List WhenClause → String
  | [] => ""
  | w :: ws => renderWhenClause flagCol w ++ renderWhens flagCol ws

/-- Rendering of the ON condition from the join column names. -/
def renderOnCond (cols : List String) : String :=
  String.intercalate " AND " (cols.map (fun c => "T." ++ c ++ " = S." ++ c))

/-- Rendering of a whole `MergeSpec`: the windowed dedup subquery over the
external table, the ON block, then the WHEN clauses. -/
def renderMergeSpec (spec : MergeSpec) (target extTable flagCol : String) : String :=
  "MERGE INTO " ++ target ++ " AS T USING\n\t(\n\t\tSELECT * EXCEPT(row_num)\n\t\tFROM (\n\t\t\tSELECT\n\t\t\t\t*, row_number() over (partition by " ++
    String.intercalate ", " spec.partitionBy ++ " order by " ++ spec.orderCol ++
    " desc) as row_num\n\t\t\tFROM " ++ extTable ++
    "\n\t\t)\n\t\tWHERE row_num = 1\n\t) AS S\n\tON\n\t(\n\t\t" ++
    renderOnCond spec.onCols ++ "\n\t)" ++ renderWhens flagCol spec.whens ++ ";"

/-! ### Executable semantics of the merge structure -/

/-- An abstract row value: an association of column names to values. -/
abbrev Valuation : Type := List (String × Int)

/-- Value of a column in a row (first binding wins; absent columns read 0). -/
def getVal (v : Valuation) (c : String) : Int :=
  match List.find? (fun p => p.1 == c) v with
  | some p => p.2
  | none => 0

/-- One raw change-log row: the row values plus the two synthetic columns,
the monotonic commit timestamp and the operation flag (I/U/D). -/
structure ChangeRow where
  vals : Valuation
  commitTs : Nat
  flag : Char
deriving DecidableEq, Repr

/-- Two rows agree on every listed column. -/
def rowsMatchOn (cols : List String) (a b : Valuation) : Bool :=
  cols.all (fun c => getVal a c == getVal b c)

/-- Semantics of the windowed dedup subquery: keep a row of the batch iff
its ordering key is maximal within its primary-key partition (the rows the
`row_number ... desc` / `row_num = 1` selection retains). -/
def dedupByMaxTs (pkCols : List String) (rows : List ChangeRow) : List ChangeRow :=
  rows.filter (fun r =>
    rows.all (fun r2 =>
      if rowsMatchOn pkCols r2.vals r.vals then decide (r2.commitTs ≤ r.commitTs) else true))

/-- The row built by assigning the listed columns from a source row. -/
def setCols (cols : List String) (src : Valuation) : Valuation :=
  cols.map (fun c => (c, getVal src c))

/-- Updating a target row: the assigned columns (bound first, so they win
every lookup) in front of the previous bindings. -/
def applyUpdate (cols : List String) (t src : Valuation) : Valuation :=
  setCols cols src ++ t

/-- Whether a clause's flag predicate holds of a row's flag. -/
def flagCondHolds : FlagCond → Char → Bool
  | FlagCond.eqDelete, f => f == 'D'
  | FlagCond.neDelete, f => f != 'D'

/-- The action of the first clause applicable to a source row, on the
matched or the not-matched side. -/
def firstClauseAction (whens : List WhenClause) (matched : Bool) (f : Char) :
    Option ClauseAction :=
  match List.find? (fun w => w.matched == matched && flagCondHolds w.cond f) whens with
  | some w => some w.action
  | none => none

/-- Effect of the matched-side clauses on a matched target row: update
rebuilds the row, delete removes it, no applicable clause leaves it. -/
def evalMergeMatched (whens : List WhenClause) (t : Valuation) (s : ChangeRow) :
    Option Valuation :=
  match firstClauseAction whens true s.flag with
  | some (ClauseAction.update cols) => some (applyUpdate cols t s.vals)
  | some ClauseAction.delete => none
  | some (ClauseAction.insert _) => some t
  | none => some t

/-- Effect of the not-matched-side clauses on an unmatched source row:
insert produces a new row, anything else produces nothing. -/
def evalMergeUnmatched (whens : List WhenClause) (s : ChangeRow) : Option Valuation :=
  match firstClauseAction whens false s.flag with
  | some (ClauseAction.insert cols) => some (setCols cols s.vals)
  | some (ClauseAction.update _) => none
  | some ClauseAction.delete => none
  | none => none

/-- Executable semantics of a merge statement structure: dedup the batch by
the partition columns, transform every target row by the matching
deduplicated source row (if any) through the matched-side clauses, and
append the rows the not-matched-side clauses produce for deduplicated
source rows matching no target row. -/
def evalMerge (spec : MergeSpec) (target : List Valuation) (batch : List ChangeRow) :
    List Valuation :=
  let dedup := dedupByMaxTs spec.partitionBy batch
  (target.filterMap (fun t =>
    match List.find? (fun s => rowsMatchOn spec.onCols t s.vals) dedup with
    | some s => evalMergeMatched spec.whens t s
    | none => some t)) ++
  (dedup.filterMap (fun s =>
    if target.any (fun t => rowsMatchOn spec.onCols t s.vals) then none
    else evalMergeUnmatched spec.whens s))

/-- The claim-side merge semantics, written from the spec's words (§4.5):
reduce the batch to the latest row per primary-key partition, then a
matched row whose flag is not delete updates, a matched row whose flag is
delete deletes, an unmatched row whose flag is not delete inserts, and an
unmatched row whose flag is delete is silently ignored. -/
def mergeResultSpec (pkCols updateCols insertCols : List String)
    (target : List Valuation) (batch : List ChangeRow) : List Valuation :=
  let latest := dedupByMaxTs pkCols batch
  (target.filterMap (fun t =>
    match List.find? (fun s => rowsMatchOn pkCols t s.vals) latest with
    | some s => if s.flag = 'D' then none else some (applyUpdate updateCols t s.vals)
    | none => some t)) ++
  (latest.filterMap (fun s =>
    if target.any (fun t => rowsMatchOn pkCols t s.vals) then none
    else if s.flag = 'D' then none else some (setCols insertCols s.vals)))

/-! ### Merging of adjacent string literals used by the render proof -/

theorem strMergeA (x : String) :
    "\n\t)" ++ ("\n\tWHEN MATCHED AND S." ++ x) = "\n\t)\n\tWHEN MATCHED AND S." ++ x := by
  rw [← String.append_assoc]
  congr 1

theorem strMergeB (x : String) :
    " != 'D' THEN " ++ ("UPDATE SET " ++ x) = " != 'D' THEN UPDATE SET " ++ x := by
  rw [← String.append_assoc]
  congr 1

theorem strMergeC (x : String) :
    "\n\tWHEN MATCHED AND " ++ ("S." ++ x) = "\n\tWHEN MATCHED AND S." ++ x := by
  rw [← String.append_assoc]
  congr 1

theorem strMergeD (x : String) :
    " = 'D' THEN DELETE" ++ ("\n\tWHEN NOT MATCHED AND " ++ ("S." ++ x)) =
      " = 'D' THEN DELETE\n\tWHEN NOT MATCHED AND S." ++ x := by
  rw [← String.append_assoc, ← String.append_assoc]
  congr 1

theorem strMergeE (x : String) :
    " != 'D' THEN " ++ ("INSERT (" ++ x) = " != 'D' THEN INSERT (" ++ x := by
  rw [← String.append_assoc]
  congr 1

/-! ### Properties of the clause semantics and the dedup window -/

theorem evalMergeMatched_threeClause (upd ins : List String) (t : Valuation) (s : ChangeRow) :
    evalMergeMatched
      [⟨true, FlagCond.neDelete, ClauseAction.update upd⟩,
       ⟨true, FlagCond.eqDelete, ClauseAction.delete⟩,
       ⟨false, FlagCond.neDelete, ClauseAction.insert ins⟩] t s =
      if s.flag = 'D' then none else some (applyUpdate upd t s.vals) := by
  by_cases h : s.flag = 'D'
  · have hb : (s.flag == 'D') = true := by simp [h]
    simp [evalMergeMatched, firstClauseAction, List.find?, flagCondHolds, bne, hb, h]
  · have hb : (s.flag == 'D') = false := by simp [h]
    simp [evalMergeMatched, firstClauseAction, List.find?, flagCondHolds, bne, hb, h]

theorem evalMergeUnmatched_threeClause (upd ins : List String) (s : ChangeRow) :
    evalMergeUnmatched
      [⟨true, FlagCond.neDelete, ClauseAction.update upd⟩,
       ⟨true, FlagCond.eqDelete, ClauseAction.delete⟩,
       ⟨false, FlagCond.neDelete, ClauseAction.insert ins⟩] s =
      if s.flag = 'D' then none else some (setCols ins s.vals) := by
  by_cases h : s.flag = 'D'
  · have hb : (s.flag == 'D') = true := by simp [h]
    simp [evalMergeUnmatched, firstClauseAction, List.find?, flagCondHolds, bne, hb, h]
  · have hb : (s.flag == 'D') = false := by simp [h]
    simp [evalMergeUnmatched, firstClauseAction, List.find?, flagCondHolds, bne, hb, h]

theorem rowsMatchOn_refl (cols : List String) (a : Valuation) : rowsMatchOn cols a a = true := by
  simp [rowsMatchOn, List.all_eq_true]

theorem rowsMatchOn_symm {cols : List String} {a b : Valuation}
    (h : rowsMatchOn cols a b = true) : rowsMatchOn cols b a = true := by
  simp only [rowsMatchOn, List.all_eq_true, beq_iff_eq] at h ⊢
  exact fun c hc => (h c hc).symm

theorem rowsMatchOn_trans {cols : List String} {a b c : Valuation}
    (hab : rowsMatchOn cols a b = true) (hbc : rowsMatchOn cols b c = true) :
    rowsMatchOn cols a c = true := by
  simp only [rowsMatchOn, List.all_eq_true, beq_iff_eq] at hab hbc ⊢
  exact fun x hx => (hab x hx).trans (hbc x hx)

theorem mem_dedupByMaxTs {pk : List String} {rows : List ChangeRow} {r : ChangeRow} :
    r ∈ dedupByMaxTs pk rows ↔
      r ∈ rows ∧ ∀ r2 ∈ rows, rowsMatchOn pk r2.vals r.vals = true →
        r2.commitTs ≤ r.commitTs := by
  simp only [dedupByMaxTs, List.mem_filter, List.all_eq_true]
  constructor
  · rintro ⟨hr, hall⟩
    refine ⟨hr, fun r2 h2 hm => ?_⟩
    have hx := hall r2 h2
    rw [if_pos hm] at hx
    exact of_decide_eq_true hx
  · rintro ⟨hr, hmax⟩
    refine ⟨hr, fun r2 h2 => ?_⟩
    by_cases hm : rowsMatchOn pk r2.vals r.vals = true
    · rw [if_pos hm]
      exact decide_eq_true (hmax r2 h2 hm)
    · rw [if_neg hm]

theorem exists_max_commitTs : ∀ l : List ChangeRow, l ≠ [] →
    ∃ m ∈ l, ∀ x ∈ l, x.commitTs ≤ m.commitTs := by
  intro l
  induction l with
  | nil => intro h; exact absurd rfl h
  | cons a l2 ih =>
    intro _
    cases l2 with
    | nil =>
      refine ⟨a, List.mem_singleton.mpr rfl, ?_⟩
      intro x hx
      rw [List.mem_singleton.mp hx]
    | cons b l3 =>
      obtain ⟨m, hm, hmax⟩ := ih (by simp)
      by_cases hc : a.commitTs ≤ m.commitTs
      · refine ⟨m, List.mem_cons_of_mem a hm, ?_⟩
        intro x hx
        rcases List.mem_cons.mp hx with hx | hx
        · rw [hx]; exact hc
        · exact hmax x hx
      · push_neg at hc
        refine ⟨a, List.mem_cons_self a _, ?_⟩
        intro x hx
        rcases List.mem_cons.mp hx with hx | hx
        · rw [hx]
        · exact le_trans (hmax x hx) (le_of_lt hc)

theorem dedupByMaxTs_unique {pk : List String} {batch : List ChangeRow}
    (hwf : ∀ r1 ∈ batch, ∀ r2 ∈ batch, rowsMatchOn pk r1.vals r2.vals = true →
      r1.commitTs = r2.commitTs → r1 = r2) :
    ∀ r1 ∈ dedupByMaxTs pk batch, ∀ r2 ∈ dedupByMaxTs pk batch,
      rowsMatchOn pk r1.vals r2.vals = true → r1 = r2 := by
  intro r1 h1 r2 h2 hm
  obtain ⟨h1b, h1max⟩ := mem_dedupByMaxTs.mp h1
  obtain ⟨h2b, h2max⟩ := mem_dedupByMaxTs.mp h2
  exact hwf r1 h1b r2 h2b hm
    (le_antisymm (h2max r1 h1b hm) (h1max r2 h2b (rowsMatchOn_symm hm)))

theorem dedupByMaxTs_covers (pk : List String) (batch : List ChangeRow) :
    ∀ r ∈ batch, ∃ m ∈ dedupByMaxTs pk batch, rowsMatchOn pk m.vals r.vals = true := by
  intro r hr
  have hrP : r ∈ batch.filter (fun x => rowsMatchOn pk x.vals r.vals) :=
    List.mem_filter.mpr ⟨hr, rowsMatchOn_refl pk r.vals⟩
  obtain ⟨m, hmP, hmax⟩ :=
    exists_max_commitTs (batch.filter (fun x => rowsMatchOn pk x.vals r.vals))
      (List.ne_nil_of_mem hrP)
  have hmBatch : m ∈ batch := (List.mem_filter.mp hmP).1
  have hmMatch : rowsMatchOn pk m.vals r.vals = true := (List.mem_filter.mp hmP).2
  refine ⟨m, mem_dedupByMaxTs.mpr ⟨hmBatch, fun r2 h2 hm2 => ?_⟩, hmMatch⟩
  exact hmax r2 (List.mem_filter.mpr ⟨h2, rowsMatchOn_trans hm2 hmMatch⟩)

theorem getVal_setCols_append_mem (cols : List String) (src t : Valuation) (c : String)
    (h : c ∈ cols) : getVal (setCols cols src ++ t) c = getVal src c := by
  induction cols with
  | nil => cases h
  | cons c0 rest ih =>
    by_cases hc : c0 = c
    · subst hc
      simp [setCols, getVal, List.find?]
    · have hcs : c ∈ rest := by
        rcases List.mem_cons.mp h with hx | hx
        · exact absurd hx.symm hc
        · exact hx
      have hrec := ih hcs
      simp only [setCols, List.map_cons, List.cons_append, getVal, List.find?] at hrec ⊢
      have hb : (c0 == c) = false := by simp [hc]
      rw [hb]
      exact hrec

/-- C1: for every table definition with at least one primary-key column and
every batch location, the statement GenMergeInto synthesizes is the
rendering of a merge structure that first reduces the raw change-log rows
to the single row with the maximum ordering key per primary-key partition
(the windowed `row_num = 1` selection, partitioned by the primary-key
columns and ordered descending by the commit-ts column) and then carries
exactly the three WHEN clauses; the executable interpretation of that
structure has the three-way conditional semantics — a matched row whose
flag is not 'D' updates, a matched row whose flag is 'D' deletes, an
unmatched row whose flag is not 'D' inserts, and an unmatched row whose
flag is 'D' produces no effect. The last two conjuncts state that (under
distinct ordering keys per partition) the dedup window keeps exactly one
row per populated partition. -/
theorem GenMergeInto_dedup_and_threeway_merge
    (td : TableDefinition) (datasetID tableID externalTableID : String)
    (target : List Valuation) (batch : List ChangeRow)
    (hpk : ∃ col ∈ td.Columns, col.IsPK = "true")
    (hwf : ∀ r1 ∈ batch, ∀ r2 ∈ batch,
      rowsMatchOn (pkColumnOf td) r1.vals r2.vals = true →
      r1.commitTs = r2.commitTs → r1 = r2) :
    GenMergeInto td datasetID tableID externalTableID =
      renderMergeSpec (mergeSpecOf td) (bigqueryTableName datasetID tableID)
        (bigqueryTableName datasetID externalTableID) CDCFlagColumnName ∧
    evalMerge (mergeSpecOf td) target batch =
      mergeResultSpec (pkColumnOf td) (insertStatOf td) (insertStatOf td) target batch ∧
    (∀ r1 ∈ dedupByMaxTs (pkColumnOf td) batch, ∀ r2 ∈ dedupByMaxTs (pkColumnOf td) batch,
      rowsMatchOn (pkColumnOf td) r1.vals r2.vals = true → r1 = r2) ∧
    (∀ r ∈ batch, ∃ m ∈ dedupByMaxTs (pkColumnOf td) batch,
      rowsMatchOn (pkColumnOf td) m.vals r.vals = true) := by
  refine ⟨?_, ?_, dedupByMaxTs_unique hwf, dedupByMaxTs_covers (pkColumnOf td) batch⟩
  · simp [GenMergeInto, renderMergeSpec, mergeSpecOf, mergeSQLTemplate, renderWhens,
      renderWhenClause, renderOnCond, renderFlagPredicate, renderClauseAction,
      pkColumnOf, onStatOf, updateStatOf, insertStatOf, valuesStatOf,
      List.map_map, Function.comp_def, String.append_assoc,
      strMergeA, strMergeB, strMergeC, strMergeD, strMergeE]
  · unfold evalMerge mergeResultSpec mergeSpecOf
    simp only []
    congr 1
    · apply congrArg (fun f => List.filterMap f target)
      funext t
      cases (dedupByMaxTs (pkColumnOf td) batch).find?
          (fun s => rowsMatchOn (pkColumnOf td) t s.vals) with
      | none => rfl
      | some s => exact evalMergeMatched_threeClause (insertStatOf td) (insertStatOf td) t s
    · apply congrArg (fun f => List.filterMap f (dedupByMaxTs (pkColumnOf td) batch))
      funext s
      by_cases ha : (target.any fun t => rowsMatchOn (pkColumnOf td) t s.vals) = true
      · simp [ha]
      · simp only [ha, if_false, Bool.false_eq_true, ite_false]
        exact evalMergeUnmatched_threeClause (insertStatOf td) (insertStatOf td) s

/-- The table of the spec's dedup example: a primary-key column and a value
column. -/
def mergeWitnessTable : TableDefinition :=
  ⟨"db", "tbl", ActionType.other,
   [⟨"key", "int", "false", "true"⟩, ⟨"val", "int", "true", "false"⟩]⟩

/-- The spec's dedup example batch: key 1 updated at ordering key 5 and
deleted at 7, key 2 inserted at 3. -/
def mergeWitnessBatch : List ChangeRow :=
  [⟨[("key", 1), ("val", 100)], 5, 'U'⟩,
   ⟨[("key", 1), ("val", 0)], 7, 'D'⟩,
   ⟨[("key", 2), ("val", 200)], 3, 'I'⟩]

/-- A target table holding key 1 only. -/
def mergeWitnessTarget : List Valuation := [[("key", 1), ("val", 50)]]

/-- Witness for C1 at the spec's dedup example. -/
theorem GenMergeInto_dedup_and_threeway_merge_witness :
    (∃ col ∈ mergeWitnessTable.Columns, col.IsPK = "true") ∧
    (∀ r1 ∈ mergeWitnessBatch, ∀ r2 ∈ mergeWitnessBatch,
      rowsMatchOn (pkColumnOf mergeWitnessTable) r1.vals r2.vals = true →
      r1.commitTs = r2.commitTs → r1 = r2) ∧
    (GenMergeInto mergeWitnessTable "db" "tbl" "ext" =
      renderMergeSpec (mergeSpecOf mergeWitnessTable) (bigqueryTableName "db" "tbl")
        (bigqueryTableName "db" "ext") CDCFlagColumnName ∧
    evalMerge (mergeSpecOf mergeWitnessTable) mergeWitnessTarget mergeWitnessBatch =
      mergeResultSpec (pkColumnOf mergeWitnessTable) (insertStatOf mergeWitnessTable)
        (insertStatOf mergeWitnessTable) mergeWitnessTarget mergeWitnessBatch ∧
    (∀ r1 ∈ dedupByMaxTs (pkColumnOf mergeWitnessTable) mergeWitnessBatch,
      ∀ r2 ∈ dedupByMaxTs (pkColumnOf mergeWitnessTable) mergeWitnessBatch,
      rowsMatchOn (pkColumnOf mergeWitnessTable) r1.vals r2.vals = true → r1 = r2) ∧
    (∀ r ∈ mergeWitnessBatch, ∃ m ∈ dedupByMaxTs (pkColumnOf mergeWitnessTable) mergeWitnessBatch,
      rowsMatchOn (pkColumnOf mergeWitnessTable) m.vals r.vals = true)) :=
  ⟨by decide, by decide,
   GenMergeInto_dedup_and_threeway_merge mergeWitnessTable "db" "tbl" "ext"
     mergeWitnessTarget mergeWitnessBatch (by decide) (by decide)⟩

/-- Evaluation of the merge semantics on the spec's dedup example: key 1
keeps only the ordering-key-7 delete (the target row disappears) and key 2
keeps the ordering-key-3 insert (a new row appears). -/
theorem mergeSemantics_specExample :
    evalMerge (mergeSpecOf mergeWitnessTable) mergeWitnessTarget mergeWitnessBatch =
      [[("key", 2), ("val", 200)]] := by decide

/-- A table with primary-key column id and non-key column v, used for C2. -/
def pkUpdateTable : TableDefinition :=
  ⟨"db", "tbl", ActionType.other,
   [⟨"id", "int", "false", "true"⟩, ⟨"v", "int", "true", "false"⟩]⟩

/-- Counterexample to C2: on a table whose primary-key column is id, the
SET list GenMergeInto builds for the UPDATE branch contains the assignment
of the primary-key column itself — the primary-key columns are NOT excluded
from the SET list. -/
theorem GenMergeInto_update_includes_pk_counterexample :
    pkColumnOf pkUpdateTable = ["id"] ∧
    "id = S.id" ∈ updateStatOf pkUpdateTable ∧
    String.intercalate ", " (updateStatOf pkUpdateTable) = "id = S.id, v = S.v" := by
  refine ⟨rfl, by decide, by decide⟩

/-- C2 as amended: the UPDATE branch of the statement GenMergeInto
synthesizes assigns every column of the table from the deduplicated source
S, the primary-key columns included (harmless because the ON condition
forces key equality); semantically, a matched non-delete row ends with the
source's value in every column. -/
theorem GenMergeInto_update_assigns_all_columns (td : TableDefinition) (t : Valuation)
    (s : ChangeRow) (hflag : s.flag ≠ 'D') :
    updateStatOf td = td.Columns.map (fun col => col.Name ++ " = S." ++ col.Name) ∧
    evalMergeMatched (mergeSpecOf td).whens t s =
      some (applyUpdate (insertStatOf td) t s.vals) ∧
    ∀ col ∈ td.Columns, getVal (applyUpdate (insertStatOf td) t s.vals) col.Name =
      getVal s.vals col.Name := by
  refine ⟨rfl, ?_, ?_⟩
  · have h3 := evalMergeMatched_threeClause (insertStatOf td) (insertStatOf td) t s
    show evalMergeMatched
      [⟨true, FlagCond.neDelete, ClauseAction.update (insertStatOf td)⟩,
       ⟨true, FlagCond.eqDelete, ClauseAction.delete⟩,
       ⟨false, FlagCond.neDelete, ClauseAction.insert (insertStatOf td)⟩] t s = _
    rw [h3, if_neg hflag]
  · intro col hcol
    show getVal (setCols (insertStatOf td) s.vals ++ t) col.Name = getVal s.vals col.Name
    exact getVal_setCols_append_mem (insertStatOf td) s.vals t col.Name
      (List.mem_map_of_mem (fun c => c.Name) hcol)

/-- A target row for the C2 witness. -/
def pkUpdateTarget : Valuation := [("id", 1), ("v", 50)]

/-- A matched update row for the C2 witness. -/
def pkUpdateSource : ChangeRow := ⟨[("id", 1), ("v", 99)], 8, 'U'⟩

/-- Witness for the amended C2 at a concrete update row. -/
theorem GenMergeInto_update_assigns_all_columns_witness :
    pkUpdateSource.flag ≠ 'D' ∧
    (updateStatOf pkUpdateTable =
        pkUpdateTable.Columns.map (fun col => col.Name ++ " = S." ++ col.Name) ∧
      evalMergeMatched (mergeSpecOf pkUpdateTable).whens pkUpdateTarget pkUpdateSource =
        some (applyUpdate (insertStatOf pkUpdateTable) pkUpdateTarget pkUpdateSource.vals) ∧
      ∀ col ∈ pkUpdateTable.Columns,
        getVal (applyUpdate (insertStatOf pkUpdateTable) pkUpdateTarget pkUpdateSource.vals)
          col.Name = getVal pkUpdateSource.vals col.Name) :=
  ⟨by decide,
   GenMergeInto_update_assigns_all_columns pkUpdateTable pkUpdateTarget pkUpdateSource
     (by decide)⟩

/-- C10: GenMergeInto is total and never fails — it is a pure function in
the embedding, and on a table definition without any primary-key column it
still returns the merge statement, with the PARTITION BY list and the ON
join condition rendered as empty strings. -/
theorem GenMergeInto_total_without_pk (td : TableDefinition) (d t e : String)
    (h : ∀ col ∈ td.Columns, col.IsPK ≠ "true") :
    pkColumnOf td = [] ∧ onStatOf td = [] ∧
    GenMergeInto td d t e =
      mergeSQLTemplate (bigqueryTableName d t) "" CDCCommitTsColumnName
        (bigqueryTableName d e) "" CDCFlagColumnName
        (String.intercalate ", " (updateStatOf td))
        (String.intercalate ", " (insertStatOf td))
        (String.intercalate ", " (valuesStatOf td)) := by
  have hfil : td.Columns.filter (fun col => col.IsPK == "true") = [] := by
    rw [List.filter_eq_nil_iff]
    intro a ha
    simp only [beq_iff_eq]
    exact h a ha
  have h1 : pkColumnOf td = [] := by rw [pkColumnOf, hfil]; rfl
  have h2 : onStatOf td = [] := by rw [onStatOf, hfil]; rfl
  refine ⟨h1, h2, ?_⟩
  unfold GenMergeInto
  rw [h1, h2]
  rfl

/-- A table without any primary-key column, for the C10 witness. -/
def noPkTable : TableDefinition :=
  ⟨"db", "tbl", ActionType.other, [⟨"a", "int", "true", "false"⟩]⟩

/-- Witness for C10 at a concrete table without primary keys. -/
theorem GenMergeInto_total_without_pk_witness :
    (∀ col ∈ noPkTable.Columns, col.IsPK ≠ "true") ∧
    (pkColumnOf noPkTable = [] ∧ onStatOf noPkTable = [] ∧
      GenMergeInto noPkTable "db" "tbl" "ext" =
        mergeSQLTemplate (bigqueryTableName "db" "tbl") "" CDCCommitTsColumnName
          (bigqueryTableName "db" "ext") "" CDCFlagColumnName
          (String.intercalate ", " (updateStatOf noPkTable))
          (String.intercalate ", " (insertStatOf noPkTable))
          (String.intercalate ", " (valuesStatOf noPkTable))) :=
  ⟨by decide, GenMergeInto_total_without_pk noPkTable "db" "tbl" "ext" (by decide)⟩

end Tidb2dw
